import Mathlib

/-!
Shallow embedding of `server/game_server.py` from KnowYourSlangComplete-Game.

Python dicts are insertion-ordered maps; we model them as association lists
(`List (κ × α)`) where assignment to an existing key updates the value in
place (preserving its position) and assignment to a fresh key appends at the
end, matching CPython semantics. `del` removes the (unique) entry of the key.

The asynchronous parts of the server (`asyncio.sleep`, `create_task`) are
modelled by splitting each coroutine at its suspension points into atomic
segments (each segment is what runs to completion between two `await`s on the
single-threaded event loop); concrete interleavings are built by composing
those segments.  Each segment returns the mutated state together with the list
of broadcasts it emitted, and, where relevant, a flag recording that the
coroutine reached its trailing `sleep`/`next_question` continuation (i.e. that
a deferred advance was scheduled).
-/

set_option autoImplicit false

namespace GameServer

variable {κ : Type} {α : Type} [DecidableEq κ]

/-- `d[k]` lookup in a Python dict: the value of the first (unique) entry of
key `k`, if present. -/
def dictGet (d : List (κ × α)) (k : κ) : Option α :=
  match d with
  | [] => none
  | (k', v) :: rest => if k' = k then some v else dictGet rest k

/-- `d[k] = v` on a Python dict: update in place when the key exists
(keeping insertion order), append at the end when it is fresh. -/
def dictSet (d : List (κ × α)) (k : κ) (v : α) : List (κ × α) :=
  match d with
  | [] => [(k, v)]
  | (k', v') :: rest => if k' = k then (k', v) :: rest else (k', v') :: dictSet rest k v

/-- `del d[k]` on a Python dict: drop the (unique) entry of key `k`. -/
def dictRemove (d : List (κ × α)) (k : κ) : List (κ × α) :=
  match d with
  | [] => []
  | (k', v') :: rest => if k' = k then rest else (k', v') :: dictRemove rest k

/-- `k in d` on a Python dict. -/
def dictContains (d : List (κ × α)) (k : κ) : Bool :=
  (dictGet d k).isSome

/-- `list(d.keys())` in insertion order. -/
def dictKeys (d : List (κ × α)) : List κ :=
  d.map Prod.fst

/-- One question of the bank (`load_questions` item shape). -/
structure QuizItem where
  term : String
  meaning : String
  distractors : List String
  difficulty : String
deriving Repr, DecidableEq

/-- Value stored in `game['players'][name]`: the connection handle (modelled
as an opaque numeric id) and the ready flag. -/
structure PlayerRec where
  websocket : Nat
  ready : Bool
deriving Repr, DecidableEq

/-- One entry of `self.games`: the per-session dict built in
`handle_connection` (lines 27-36). -/
structure Game where
  players : List (String × PlayerRec)
  state : String
  host : String
  current_question : Option QuizItem
  scores : List (String × Nat)
  question_index : Nat
  questions : List QuizItem
deriving Repr, DecidableEq

/-- Outbound message shapes built by the server (the payloads of the
`self.broadcast({...})` calls). -/
inductive Msg where
  | game_state (players : List (String × Bool)) (scores : List (String × Nat))
      (state : String) (host : String)
  | new_question (term : String) (choices : List String)
      (time_limit : Nat) (question_number : Nat)
  | answer_result (player : String) (correct : Bool) (correct_answer : String)
  | game_over (scores : List (String × Nat)) (winner : Option String)
  | player_left (player_name : String)
deriving Repr, DecidableEq

/-- One `broadcast(message, game_id, exclude)` call: the message together with
the player names it is attempted for (those whose websocket is not excluded,
in dict iteration order — lines 238-251). -/
structure Broadcast where
  msg : Msg
  recipients : List String
deriving Repr, DecidableEq

/-- The fan-out of `GameServer.broadcast` restricted to one game: each player
whose websocket is not in `exclude` is sent the message. -/
def broadcastTo (g : Game) (m : Msg) (exclude : List Nat) : Broadcast :=
  { msg := m
    recipients := (g.players.filter (fun p => ¬ p.2.websocket ∈ exclude)).map Prod.fst }

/-- The `game_state` payload of `broadcast_game_state` (lines 228-236). -/
def gameStateMsg (g : Game) : Msg :=
  .game_state (g.players.map (fun p => (p.1, p.2.ready))) g.scores g.state g.host

/-- `GameServer.broadcast_game_state` (lines 228-236). -/
def broadcast_game_state (g : Game) : Broadcast :=
  broadcastTo g (gameStateMsg g) []

/-- `GameServer.load_questions` (lines 61-82): the hard-coded bank. -/
def load_questions : List QuizItem :=
  [ { term := "awe"
      meaning := "friendly greeting; hey/what's up"
      distractors := ["goodbye", "please", "thank you"]
      difficulty := "easy" },
    { term := "braai"
      meaning := "barbecue; cook meat over coals"
      distractors := ["bake bread", "stir-fry veggies", "drink tea"]
      difficulty := "easy" },
    { term := "howzit"
      meaning := "hello; how are you?"
      distractors := ["goodbye", "please", "congrats"]
      difficulty := "easy" } ]

/-- The fresh session dict created on first connection for an unknown game id
(lines 27-36); `host` is the first connector's name. -/
def newGame (host : String) : Game :=
  { players := []
    state := "lobby"
    host := host
    current_question := none
    scores := []
    question_index := 0
    questions := load_questions }

/-- `GameServer.end_game` (lines 206-214): set state to `finished` and
broadcast `game_over` with the Python `max(scores.items(), key=value)` winner.
Python `max` keeps the earliest element among ties, so the fold replaces the
running best only on a strictly greater score. -/
def maxStep (best p : String × Nat) : String × Nat :=
  if best.2 < p.2 then p else best

def winnerOf (scores : List (String × Nat)) : Option String :=
  match scores with
  | [] => none
  | x :: rest => some (List.foldl maxStep x rest).1

/-- `GameServer.end_game` (lines 206-214).  Note: it does not clear
`current_question`. -/
def end_game (g : Game) : Game × List Broadcast :=
  let g' := { g with state := "finished" }
  (g', [broadcastTo g' (.game_over g'.scores (winnerOf g'.scores)) []])

/-- The choice list built at line 155 before shuffling:
`[question['meaning']] + question['distractors'][:3]`. -/
def choicesBase (q : QuizItem) : List String :=
  [q.meaning] ++ q.distractors.take 3

/-- `GameServer.next_question` (lines 143-168).  `shuffle` stands for
`random.shuffle` (any permutation; instantiated with a concrete permutation in
traces).  The scheduling of `question_timeout` (line 168) is represented by
the caller placing a `question_timeout` segment later in the trace. -/
def next_question (shuffle : List String → List String) (g : Game) :
    Game × List Broadcast :=
  if h : g.questions.length ≤ g.question_index then
    end_game g
  else
    let question := g.questions.get ⟨g.question_index, Nat.lt_of_not_le h⟩
    let g' := { g with
      current_question := some question
      question_index := g.question_index + 1 }
    let choices := shuffle (choicesBase question)
    (g', [broadcastTo g' (.new_question question.term choices 20 g'.question_index) []])

/-- `GameServer.start_game` (lines 132-141): set state `playing`, reset the
index, zero every score in place, then advance to round 1. -/
def start_game (shuffle : List String → List String) (g : Game) :
    Game × List Broadcast :=
  let g1 := { g with
    state := "playing"
    question_index := 0
    scores := g.scores.map (fun p => (p.1, 0)) }
  next_question shuffle g1

/-- `GameServer.reset_game` (lines 216-226): back to lobby, question cleared,
index and scores reset, roster kept; broadcasts the refreshed state. -/
def reset_game (g : Game) : Game × List Broadcast :=
  let g' := { g with
    state := "lobby"
    current_question := none
    question_index := 0
    scores := g.scores.map (fun p => (p.1, 0)) }
  (g', [broadcast_game_state g'])

/-- `GameServer.handle_answer` (lines 183-204) up to its `await sleep(3)`.
Returns `none` when `game['scores'][player_name] += 10` raises `KeyError`
(swallowed by `handle_message`, so no mutation and no broadcast happen).
The trailing `Bool` records that the coroutine reached line 203, i.e. that a
deferred `next_question` advance is now pending; the caller places a
`next_question` segment later in the trace to run it. -/
def handle_answer (g : Game) (player_name : String) (answer : String) :
    Option (Game × List Broadcast × Bool) :=
  match g.current_question with
  | none => some (g, [], false)
  | some question =>
    let is_correct := answer = question.meaning
    if is_correct then
      match dictGet g.scores player_name with
      | none => none
      | some v =>
        let g' := { g with scores := dictSet g.scores player_name (v + 10) }
        some (g', [broadcastTo g' (.answer_result player_name true question.meaning) []], true)
    else
      some (g, [broadcastTo g (.answer_result player_name false question.meaning) []], true)

/-- The guard of `GameServer.question_timeout` (line 173), evaluated when the
timer wakes after its 20-unit sleep: the code checks only that the state is
still `playing` and that *some* question is active — not that the question it
was scheduled for is still the active one. -/
def question_timeout_guard (g : Game) : Bool :=
  g.state = "playing" && g.current_question.isSome

/-- `GameServer.question_timeout` (lines 170-181) from its wake-up at line 172
to the `await sleep(3)` at line 180.  The `Bool` records that the guard passed
and a deferred `next_question` advance is pending. -/
def question_timeout_fire (g : Game) : Game × List Broadcast × Bool :=
  if g.state = "playing" then
    match g.current_question with
    | some q => (g, [broadcastTo g (.answer_result "System" false q.meaning) []], true)
    | none => (g, [], false)
  else (g, [], false)

/-- Server-level state: `self.games` and `self.connections`
(`websocket ↦ (game_id, player_name)`). -/
structure ServerState where
  games : List (String × Game)
  connections : List (Nat × String × String)
deriving Repr, DecidableEq

/-- The player-registration part of `GameServer.handle_connection`
(lines 26-50): create the session if the id is unknown, then unconditionally
overwrite the player record (fresh websocket, `ready = False`), set the score
entry to `0`, record the registry entry, and broadcast the refreshed state. -/
def handle_connection_join (s : ServerState) (ws : Nat)
    (game_id player_name : String) : ServerState × List Broadcast :=
  let games1 :=
    if dictContains s.games game_id then s.games
    else dictSet s.games game_id (newGame player_name)
  match dictGet games1 game_id with
  | none => (s, [])
  | some game =>
    let game' := { game with
      players := dictSet game.players player_name { websocket := ws, ready := false }
      scores := dictSet game.scores player_name 0 }
    let s' : ServerState :=
      { games := dictSet games1 game_id game'
        connections := dictSet s.connections ws (game_id, player_name) }
    (s', [broadcast_game_state game'])

/-- `GameServer.handle_disconnect` (lines 111-130): look the websocket up in
the registry; if its player is still in the session, delete the player and
score entries together, broadcast `player_left` excluding the departing
websocket, broadcast the refreshed state; finally erase the registry entry. -/
def handle_disconnect (s : ServerState) (ws : Nat) : ServerState × List Broadcast :=
  match dictGet s.connections ws with
  | none => (s, [])
  | some (game_id, player_name) =>
    let (games', bs) :=
      match dictGet s.games game_id with
      | none => (s.games, [])
      | some game =>
        if dictContains game.players player_name then
          let game' := { game with
            players := dictRemove game.players player_name
            scores := dictRemove game.scores player_name }
          (dictSet s.games game_id game',
           [broadcastTo game' (.player_left player_name) [ws],
            broadcast_game_state game'])
        else (s.games, [])
    ({ games := games', connections := dictRemove s.connections ws }, bs)

/-- Parsed inbound message: the `action` field dispatched by
`handle_message`.  `other` stands for any unknown action (silently ignored,
lines 84-109). -/
inductive Action where
  | join
  | start_game
  | submit_answer (answer : String)
  | play_again
  | other
deriving Repr, DecidableEq

/-- `GameServer.handle_message` (lines 84-109).  `shuffle` is threaded to
`next_question`.  A `KeyError` inside a handler (missing player/score key) is
caught by the `except` at line 108: the state is left as mutated so far —
for the two places this can happen (`join` on a removed player, `+= 10` on a
removed score entry) nothing has been mutated yet, so the original state is
returned. -/
def handle_message (shuffle : List String → List String) (s : ServerState)
    (game_id player_name : String) (a : Action) : ServerState × List Broadcast :=
  match dictGet s.games game_id with
  | none => (s, [])
  | some game =>
    match a with
    | .join =>
      match dictGet game.players player_name with
      | none => (s, [])
      | some pr =>
        let game' := { game with
          players := dictSet game.players player_name { pr with ready := true } }
        ({ s with games := dictSet s.games game_id game' }, [broadcast_game_state game'])
    | .start_game =>
      if player_name = game.host then
        let (game', bs) := start_game shuffle game
        ({ s with games := dictSet s.games game_id game' }, bs)
      else (s, [])
    | .submit_answer answer =>
      match handle_answer game player_name answer with
      | none => (s, [])
      | some (game', bs, _) =>
        ({ s with games := dictSet s.games game_id game' }, bs)
    | .play_again =>
      if player_name = game.host then
        let (game', bs) := reset_game game
        ({ s with games := dictSet s.games game_id game' }, bs)
      else (s, [])
    | .other => (s, [])

/-- The spec's key-set invariant for one session: `players` and `scores`
have the same keys in the same (insertion) order. -/
def keysAligned (g : Game) : Prop :=
  dictKeys g.players = dictKeys g.scores

/-- `keysAligned` for every session stored in a games dict. -/
def gamesAligned (games : List (String × Game)) : Prop :=
  ∀ gid g, dictGet games gid = some g → keysAligned g

/-- `keysAligned` for every session of a server. -/
def serverAligned (s : ServerState) : Prop :=
  gamesAligned s.games

/-! ### Concrete traces

Reachable states built by composing the atomic segments above, used to
exhibit concrete behaviours of the racing advance paths. `id` instantiates
`random.shuffle` with the identity permutation. -/

/-- The empty server (`GameServer.__init__`). -/
def server0 : ServerState := { games := [], connections := [] }

/-- Server after Alice connects to the fresh game `ABC123` (she becomes
host). -/
def serverA : ServerState := (handle_connection_join server0 1 "ABC123" "Alice").1

/-- Server after Bob also connects to `ABC123`. -/
def serverAB : ServerState := (handle_connection_join serverA 2 "ABC123" "Bob").1

/-- The `ABC123` session with Alice alone in the lobby. -/
def aliceLobby : Game :=
  match dictGet serverA.games "ABC123" with
  | some g => g
  | none => newGame "Alice"

/-- The `ABC123` session with Alice and Bob in the lobby. -/
def abLobby : Game :=
  match dictGet serverAB.games "ABC123" with
  | some g => g
  | none => newGame "Alice"

/-- The session state after a `handle_answer` segment, dropping the
broadcasts (`none` means the swallowed `KeyError` left the state as is). -/
def answeredGame (g : Game) (p ans : String) : Game :=
  match handle_answer g p ans with
  | some (g', _, _) => g'
  | none => g

/-- Trace for the racing triggers: Alice alone, game started (round 1
active, index 1); its 20-unit timeout is now pending. -/
def c1Round1 : Game := (start_game id aliceLobby).1

/-- … Alice answers round 1 correctly well before the timeout; the answer
path's 3-unit grace advance is now pending alongside the round-1 timeout. -/
def c1Answered : Game := answeredGame c1Round1 "Alice" "friendly greeting; hey/what's up"

/-- … the grace advance runs `next_question`: round 2 is active (index 2)
and round 2's own timeout is scheduled; round 1's timeout is still pending. -/
def c1Round2 : Game := (next_question id c1Answered).1

/-- … the stale round-1 timeout's deferred advance runs `next_question`. -/
def c1AfterStale : Game := (next_question id c1Round2).1

/-- Continuing the trace to exhaustion: one more advance past round 3 calls
`end_game`. -/
def c2Finished : Game := (next_question id c1AfterStale).1

/-- Placeholder item used only as the default of total list access in
concrete statements. -/
def dummyQ : QuizItem :=
  { term := "", meaning := "", distractors := [], difficulty := "" }

/-- The first item of the hard-coded bank (`awe`). -/
def q0 : QuizItem := load_questions.getD 0 dummyQ

/-- The second item of the hard-coded bank (`braai`). -/
def q1 : QuizItem := load_questions.getD 1 dummyQ

/-- A played-out two-player session with tied scores, used to exercise the
winner tie-break. -/
def gTie : Game :=
  { abLobby with
      state := "playing"
      question_index := 3
      scores := [("Alice", 10), ("Bob", 10)] }

/-- A server holding the played-out session, used to exercise host messages
from the `finished` state. -/
def serverFin : ServerState :=
  { games := [("ABC123", c2Finished)], connections := [] }

/-- Two-player trace: Alice and Bob, game started (round 1 active). -/
def c3Round1 : Game := (start_game id abLobby).1

/-- … Alice answers round 1 correctly (first answer of the round); her
grace advance is pending. -/
def c3AfterAlice : Game := answeredGame c3Round1 "Alice" "friendly greeting; hey/what's up"

/-- … Bob answers the same round during the grace delay. -/
def c3AfterBob : Game := answeredGame c3AfterAlice "Bob" "friendly greeting; hey/what's up"

end GameServer

namespace GameServer

/-! ### Dictionary lemmas -/

theorem dictKeys_nil {κ α : Type} : dictKeys ([] : List (κ × α)) = [] := rfl

theorem dictKeys_cons {κ α : Type} (k : κ) (v : α) (tl : List (κ × α)) :
    dictKeys ((k, v) :: tl) = k :: dictKeys tl := rfl

section DictLemmas

variable {κ : Type} {α : Type} {β : Type} [DecidableEq κ]

theorem dictGet_set_self (d : List (κ × α)) (k : κ) (v : α) :
    dictGet (dictSet d k v) k = some v := by
  induction d with
  | nil => simp [dictSet, dictGet]
  | cons hd tl ih =>
    obtain ⟨k', v'⟩ := hd
    by_cases h : k' = k <;> simp [dictSet, dictGet, h, ih]

theorem dictGet_set_ne (d : List (κ × α)) (k k' : κ) (v : α) (h : k' ≠ k) :
    dictGet (dictSet d k v) k' = dictGet d k' := by
  have h' : ¬ k = k' := fun e => h e.symm
  induction d with
  | nil => simp [dictSet, dictGet, h']
  | cons hd tl ih =>
    obtain ⟨k₁, v₁⟩ := hd
    by_cases h1 : k₁ = k
    · subst h1
      simp [dictSet, dictGet, h']
    · simp [dictSet, dictGet, h1, ih]

theorem dictGet_eq_none_of_not_mem (d : List (κ × α)) (k : κ)
    (h : k ∉ dictKeys d) : dictGet d k = none := by
  induction d with
  | nil => rfl
  | cons hd tl ih =>
    obtain ⟨k', v'⟩ := hd
    rw [dictKeys_cons] at h
    have hne : ¬ k' = k := fun e => h (e ▸ List.mem_cons_self k' _)
    have htl : k ∉ dictKeys tl := fun e => h (List.mem_cons_of_mem _ e)
    simp [dictGet, hne, ih htl]

theorem dictGet_remove_self (d : List (κ × α)) (k : κ)
    (h : (dictKeys d).Nodup) : dictGet (dictRemove d k) k = none := by
  induction d with
  | nil => rfl
  | cons hd tl ih =>
    obtain ⟨k', v'⟩ := hd
    rw [dictKeys_cons, List.nodup_cons] at h
    by_cases he : k' = k
    · subst he
      simpa [dictRemove] using dictGet_eq_none_of_not_mem tl k' h.1
    · simp [dictRemove, dictGet, he, ih h.2]

theorem dictKeys_set_congr (d₁ : List (κ × α)) (d₂ : List (κ × β)) (k : κ)
    (v : α) (w : β) (h : dictKeys d₁ = dictKeys d₂) :
    dictKeys (dictSet d₁ k v) = dictKeys (dictSet d₂ k w) := by
  induction d₁ generalizing d₂ with
  | nil =>
    cases d₂ with
    | nil => rfl
    | cons hd tl => simp [dictKeys] at h
  | cons hd tl ih =>
    obtain ⟨k₁, v₁⟩ := hd
    cases d₂ with
    | nil => simp [dictKeys] at h
    | cons hd₂ tl₂ =>
      obtain ⟨k₂, w₂⟩ := hd₂
      rw [dictKeys_cons, dictKeys_cons] at h
      injection h with hk ht
      subst hk
      by_cases he : k₁ = k
      · simp [dictSet, he, dictKeys_cons, ht]
      · simp [dictSet, he, dictKeys_cons, ih tl₂ ht]

theorem dictKeys_remove_congr (d₁ : List (κ × α)) (d₂ : List (κ × β)) (k : κ)
    (h : dictKeys d₁ = dictKeys d₂) :
    dictKeys (dictRemove d₁ k) = dictKeys (dictRemove d₂ k) := by
  induction d₁ generalizing d₂ with
  | nil =>
    cases d₂ with
    | nil => rfl
    | cons hd tl => simp [dictKeys] at h
  | cons hd tl ih =>
    obtain ⟨k₁, v₁⟩ := hd
    cases d₂ with
    | nil => simp [dictKeys] at h
    | cons hd₂ tl₂ =>
      obtain ⟨k₂, w₂⟩ := hd₂
      rw [dictKeys_cons, dictKeys_cons] at h
      injection h with hk ht
      subst hk
      by_cases he : k₁ = k
      · simpa [dictRemove, he] using ht
      · simp [dictRemove, he, dictKeys_cons, ih tl₂ ht]

theorem dictKeys_set_of_contains (d : List (κ × α)) (k : κ) (v : α)
    (h : dictContains d k = true) : dictKeys (dictSet d k v) = dictKeys d := by
  induction d with
  | nil => simp [dictContains, dictGet] at h
  | cons hd tl ih =>
    obtain ⟨k', v'⟩ := hd
    by_cases he : k' = k
    · simp [dictSet, he, dictKeys_cons]
    · simp only [dictContains, dictGet, he, if_false] at h
      simp [dictSet, he, dictKeys_cons, ih h]

theorem dictKeys_map_snd {κ α β : Type} (d : List (κ × α)) (f : κ × α → β) :
    dictKeys (d.map (fun p => (p.1, f p))) = dictKeys d := by
  induction d with
  | nil => rfl
  | cons hd tl ih =>
    obtain ⟨k', v'⟩ := hd
    rw [List.map_cons, dictKeys_cons, ih]
    rfl

theorem dictContains_of_get (d : List (κ × α)) (k : κ) (v : α)
    (h : dictGet d k = some v) : dictContains d k = true := by
  simp [dictContains, h]

end DictLemmas

/-! ### Key-set invariant preservation lemmas -/

theorem keysAligned_newGame (host : String) : keysAligned (newGame host) := rfl

theorem keysAligned_end_game (g : Game) (h : keysAligned g) :
    keysAligned (end_game g).1 := h

theorem keysAligned_next_question (shuffle : List String → List String)
    (g : Game) (h : keysAligned g) : keysAligned (next_question shuffle g).1 := by
  unfold next_question
  split
  · exact h
  · exact h

theorem keysAligned_reset_game (g : Game) (h : keysAligned g) :
    keysAligned (reset_game g).1 := by
  unfold keysAligned reset_game
  simpa [dictKeys_map_snd] using h

theorem keysAligned_start_game (shuffle : List String → List String)
    (g : Game) (h : keysAligned g) : keysAligned (start_game shuffle g).1 := by
  unfold start_game
  apply keysAligned_next_question
  unfold keysAligned at h ⊢
  simpa [dictKeys_map_snd] using h

theorem keysAligned_handle_answer (g : Game) (p a : String)
    (out : Game × List Broadcast × Bool)
    (h : keysAligned g) (hout : handle_answer g p a = some out) :
    keysAligned out.1 := by
  unfold handle_answer at hout
  cases hq : g.current_question with
  | none =>
    rw [hq] at hout
    dsimp only at hout
    cases hout
    exact h
  | some q =>
    rw [hq] at hout
    dsimp only at hout
    by_cases hc : a = q.meaning
    · rw [if_pos hc] at hout
      cases hv : dictGet g.scores p with
      | none => rw [hv] at hout; dsimp only at hout; cases hout
      | some v =>
        rw [hv] at hout
        dsimp only at hout
        cases hout
        unfold keysAligned at h ⊢
        simp only
        rw [dictKeys_set_of_contains _ _ _ (dictContains_of_get _ _ _ hv)]
        exact h
    · rw [if_neg hc] at hout
      cases hout
      exact h

theorem keysAligned_question_timeout_fire (g : Game) (h : keysAligned g) :
    keysAligned (question_timeout_fire g).1 := by
  unfold question_timeout_fire
  split
  · cases g.current_question <;> exact h
  · exact h

theorem gamesAligned_set (games : List (String × Game)) (gid : String)
    (g : Game) (hs : gamesAligned games) (hg : keysAligned g) :
    gamesAligned (dictSet games gid g) := by
  intro gid' g' h
  by_cases he : gid' = gid
  · subst he
    rw [dictGet_set_self] at h
    cases h
    exact hg
  · rw [dictGet_set_ne _ _ _ _ he] at h
    exact hs gid' g' h

/-- C4: every mutating entry point preserves the invariant that `players`
and `scores` have identical key sets, in every session of the server: a
player's score entry and player entry are always added (`handle_connection`,
lines 41-45), updated (score `+= 10` only on an existing key) and removed
(`handle_disconnect`, lines 118-119) together; `start_game`/`reset_game`
rewrite score values in place; no other operation touches either key set. -/
theorem c4_players_scores_keysets (shuffle : List String → List String)
    (s : ServerState) (hs : serverAligned s) :
    (∀ ws gid p, serverAligned (handle_connection_join s ws gid p).1) ∧
    (∀ gid p a, serverAligned (handle_message shuffle s gid p a).1) ∧
    (∀ ws, serverAligned (handle_disconnect s ws).1) ∧
    (∀ g : Game, keysAligned g →
      keysAligned (start_game shuffle g).1 ∧
      keysAligned (next_question shuffle g).1 ∧
      keysAligned (end_game g).1 ∧
      keysAligned (reset_game g).1 ∧
      keysAligned (question_timeout_fire g).1 ∧
      (∀ p a out, handle_answer g p a = some out → keysAligned out.1)) := by
  refine ⟨?_, ?_, ?_, ?_⟩
  · -- handle_connection_join
    intro ws gid p
    unfold handle_connection_join
    have hgames1 : gamesAligned
        (if dictContains s.games gid then s.games
         else dictSet s.games gid (newGame p)) := by
      split
      · exact hs
      · exact gamesAligned_set _ _ _ hs (keysAligned_newGame p)
    cases hfind : dictGet
        (if dictContains s.games gid then s.games
         else dictSet s.games gid (newGame p)) gid with
    | none => simpa [hfind] using hs
    | some game =>
      simp only [hfind]
      have hgame : keysAligned game := hgames1 gid game hfind
      refine gamesAligned_set _ _ _ hgames1 ?_
      exact dictKeys_set_congr _ _ _ _ _ hgame
  · -- handle_message
    intro gid p a
    unfold handle_message
    cases hg : dictGet s.games gid with
    | none => simpa using hs
    | some game =>
      have hgame : keysAligned game := hs gid game hg
      dsimp only
      cases a with
      | join =>
        cases hp : dictGet game.players p with
        | none => exact hs
        | some pr =>
          dsimp only
          refine gamesAligned_set _ _ _ hs ?_
          unfold keysAligned at hgame ⊢
          simp only
          rw [dictKeys_set_of_contains _ _ _ (dictContains_of_get _ _ _ hp)]
          exact hgame
      | start_game =>
        dsimp only
        split
        · exact gamesAligned_set _ _ _ hs (keysAligned_start_game shuffle game hgame)
        · exact hs
      | submit_answer answer =>
        dsimp only
        cases hans : handle_answer game p answer with
        | none => exact hs
        | some out =>
          obtain ⟨game', bs, adv⟩ := out
          exact gamesAligned_set _ _ _ hs
            (keysAligned_handle_answer game p answer _ hgame hans)
      | play_again =>
        dsimp only
        split
        · exact gamesAligned_set _ _ _ hs (keysAligned_reset_game game hgame)
        · exact hs
      | other => exact hs
  · -- handle_disconnect
    intro ws
    unfold handle_disconnect
    cases hc : dictGet s.connections ws with
    | none => exact hs
    | some entry =>
      obtain ⟨gid, p⟩ := entry
      dsimp only
      cases hg : dictGet s.games gid with
      | none => exact hs
      | some game =>
        have hgame : keysAligned game := hs gid game hg
        dsimp only
        split
        · exact gamesAligned_set _ _ _ hs
            (dictKeys_remove_congr _ _ _ hgame)
        · exact hs
  · -- game-level segments
    intro g hg
    exact ⟨keysAligned_start_game shuffle g hg,
      keysAligned_next_question shuffle g hg,
      keysAligned_end_game g hg,
      keysAligned_reset_game g hg,
      keysAligned_question_timeout_fire g hg,
      fun p a out hout => keysAligned_handle_answer g p a out hg hout⟩

/-- Witness for C4 at the concrete two-player server, itself built by two
invariant-preserving joins from the empty server. -/
theorem c4_players_scores_keysets_witness :
    serverAligned ((handle_connection_join serverAB 3 "ABC123" "Carol").1) := by
  have h0 : serverAligned server0 := by
    intro gid g h
    simp [server0, dictGet] at h
  have hA : serverAligned serverA :=
    (c4_players_scores_keysets id server0 h0).1 1 "ABC123" "Alice"
  have hAB : serverAligned serverAB :=
    (c4_players_scores_keysets id serverA hA).1 2 "ABC123" "Bob"
  exact (c4_players_scores_keysets id serverAB hAB).1 3 "ABC123" "Carol"

/-- C1: the claim says that when an answer and the round's timeout race,
whichever trigger fires second detects that its round is over and performs
no mutation.  The code violates this: after Alice's answer advances the
session to round 2, the stale round-1 timeout's guard (line 173) still
passes — it only checks that the state is `playing` and that *some* question
is active — so the stale timer broadcasts a spurious result and performs a
second advance, pushing the session to round 3 and changing the active
question. -/
theorem c1_stale_timeout_advances_again :
    question_timeout_guard c1Round2 = true ∧
    (question_timeout_fire c1Round2).2.2 = true ∧
    c1Round2.question_index = 2 ∧
    c1AfterStale.question_index = 3 ∧
    c1AfterStale.current_question ≠ c1Round2.current_question := by
  decide

/-- C2 counterexample: a reachable state (Alice's game played to exhaustion)
in which the lifecycle state is `finished` yet `current_question` is not
null, refuting the claimed iff — `end_game` (lines 206-214) never clears
`current_question`. -/
theorem c2_finished_keeps_question :
    c2Finished.state = "finished" ∧ c2Finished.current_question ≠ none := by
  decide

/-- C2 amended: resetting to the lobby clears the current question, and an
in-range advance makes it non-null; but ending the game only flips the state
to `finished` and leaves `current_question` exactly as it was (the last
round's question), so the claimed iff fails on the `finished` side. -/
theorem c2_question_nullness (g : Game) (shuffle : List String → List String)
    (h : g.question_index < g.questions.length) :
    (reset_game g).1.current_question = none ∧
    (reset_game g).1.state = "lobby" ∧
    (end_game g).1.state = "finished" ∧
    (end_game g).1.current_question = g.current_question ∧
    ((next_question shuffle g).1.current_question).isSome = true := by
  refine ⟨rfl, rfl, rfl, rfl, ?_⟩
  unfold next_question
  rw [dif_neg (Nat.not_le.mpr h)]
  rfl

/-- Witness for C2's amended statement at the concrete finished trace state
(which still has `question_index = 3 < 3` false — so we witness at the
round-2 state, whose index 2 is in range). -/
theorem c2_question_nullness_witness :
    (reset_game c1Round2).1.current_question = none ∧
    (reset_game c1Round2).1.state = "lobby" ∧
    (end_game c1Round2).1.state = "finished" ∧
    (end_game c1Round2).1.current_question = c1Round2.current_question ∧
    ((next_question id c1Round2).1.current_question).isSome = true :=
  c2_question_nullness c1Round2 id (by decide)

/-- C3: the claim says any answer after the first in a round leaves every
score unchanged and triggers no further advance.  The code violates this:
Bob's answer, submitted during the grace delay after Alice's, still sees the
round-1 question active, is scored (+10) and reaches its own deferred
advance; the two pending advances then push the session from round 1 to
round 3. -/
theorem c3_second_answer_scored_and_advances :
    dictGet c3AfterAlice.scores "Alice" = some 10 ∧
    dictGet c3AfterAlice.scores "Bob" = some 0 ∧
    c3AfterAlice.current_question = c3Round1.current_question ∧
    (handle_answer c3AfterAlice "Bob" "friendly greeting; hey/what's up").map
      (fun r => dictGet r.1.scores "Bob") = some (some 10) ∧
    (handle_answer c3AfterAlice "Bob" "friendly greeting; hey/what's up").map
      (fun r => r.2.2) = some true ∧
    (next_question id (next_question id c3AfterBob).1).1.question_index = 3 := by
  decide

/-- C5: with a question active and the submitter present in the score map,
submitting exactly the stored meaning adds exactly 10 to the submitter's
score (line 193) and touches no other entry; any other string (the
comparison at line 190 is plain string equality, so case or whitespace
variants included) leaves the game unchanged apart from the result
broadcast; with no active question the handler returns without any effect
(lines 187-188). -/
theorem c5_exact_match_scoring (g : Game) (q : QuizItem) (p ans : String)
    (v : Nat) (hq : g.current_question = some q)
    (hv : dictGet g.scores p = some v) :
    (ans = q.meaning →
      handle_answer g p ans =
        some ({ g with scores := dictSet g.scores p (v + 10) },
          [broadcastTo { g with scores := dictSet g.scores p (v + 10) }
            (.answer_result p true q.meaning) []], true) ∧
      dictGet (dictSet g.scores p (v + 10)) p = some (v + 10) ∧
      (∀ p', p' ≠ p → dictGet (dictSet g.scores p (v + 10)) p' = dictGet g.scores p')) ∧
    (ans ≠ q.meaning →
      handle_answer g p ans =
        some (g, [broadcastTo g (.answer_result p false q.meaning) []], true)) ∧
    (∀ g' : Game, g'.current_question = none →
      handle_answer g' p ans = some (g', [], false)) := by
  refine ⟨?_, ?_, ?_⟩
  · intro he
    refine ⟨?_, dictGet_set_self _ _ _, fun p' hp' => dictGet_set_ne _ _ _ _ hp'⟩
    unfold handle_answer
    rw [hq]
    dsimp only
    rw [if_pos he, hv]
  · intro hne
    unfold handle_answer
    rw [hq]
    dsimp only
    rw [if_neg hne]
  · intro g' hg'
    unfold handle_answer
    rw [hg']

/-- Witness for C5 at round 1 of the started game: the exact meaning scores
Alice from 0 to 10, and a capitalised variant is judged incorrect and leaves
the game unchanged. -/
theorem c5_exact_match_scoring_witness :
    dictGet (dictSet c1Round1.scores "Alice" (0 + 10)) "Alice" = some (0 + 10) ∧
    handle_answer c1Round1 "Alice" "Friendly greeting; hey/what's up" =
      some (c1Round1,
        [broadcastTo c1Round1 (.answer_result "Alice" false q0.meaning) []], true) := by
  have hexact := c5_exact_match_scoring c1Round1 q0 "Alice"
    "friendly greeting; hey/what's up" 0 (by decide) (by decide)
  have hvariant := c5_exact_match_scoring c1Round1 q0 "Alice"
    "Friendly greeting; hey/what's up" 0 (by decide) (by decide)
  exact ⟨(hexact.1 (by decide)).2.1, hvariant.2.1 (by decide)⟩

/-- C9: `handle_connection` (lines 40-47) registers a player
unconditionally: when the name is already present in the session, the stored
record is overwritten with the new websocket and `ready = False`, and the
score entry is reset to `0` — so a re-join during play erases the
accumulated score.  The lifecycle state is untouched. -/
theorem c9_rejoin_resets (s : ServerState) (ws : Nat)
    (game_id player_name : String) (game : Game) (prev : PlayerRec)
    (hg : dictGet s.games game_id = some game)
    (_hprev : dictGet game.players player_name = some prev) :
    handle_connection_join s ws game_id player_name =
      ({ games := dictSet s.games game_id
           { game with
               players := dictSet game.players player_name
                 { websocket := ws, ready := false }
               scores := dictSet game.scores player_name 0 }
         connections := dictSet s.connections ws (game_id, player_name) },
       [broadcast_game_state
          { game with
              players := dictSet game.players player_name
                { websocket := ws, ready := false }
              scores := dictSet game.scores player_name 0 }]) ∧
    dictGet (dictSet game.players player_name { websocket := ws, ready := false })
      player_name = some { websocket := ws, ready := false } ∧
    dictGet (dictSet game.scores player_name 0) player_name = some 0 := by
  refine ⟨?_, dictGet_set_self _ _ _, dictGet_set_self _ _ _⟩
  unfold handle_connection_join
  rw [if_pos (dictContains_of_get _ _ _ hg)]
  dsimp only
  rw [hg]

/-- Witness for C9: Bob, already in the session with websocket 2 and a
10-point score, reconnects with websocket 3; his record is replaced and his
score entry reset to 0. -/
theorem c9_rejoin_resets_witness :
    handle_connection_join serverAB 3 "ABC123" "Bob" =
      ({ games := dictSet serverAB.games "ABC123"
           { abLobby with
               players := dictSet abLobby.players "Bob"
                 { websocket := 3, ready := false }
               scores := dictSet abLobby.scores "Bob" 0 }
         connections := dictSet serverAB.connections 3 ("ABC123", "Bob") },
       [broadcast_game_state
          { abLobby with
              players := dictSet abLobby.players "Bob"
                { websocket := 3, ready := false }
              scores := dictSet abLobby.scores "Bob" 0 }]) ∧
    dictGet (dictSet abLobby.players "Bob" { websocket := 3, ready := false })
      "Bob" = some { websocket := 3, ready := false } ∧
    dictGet (dictSet abLobby.scores "Bob" 0) "Bob" = some 0 :=
  c9_rejoin_resets serverAB 3 "ABC123" "Bob" abLobby
    { websocket := 2, ready := false } (by decide) (by decide)

/-- C10: the `start_game` and `play_again` dispatch arms (lines 97-106)
check only the sender against the host and never the lifecycle state: for a
session in any state, a host-sent `start_game` re-enters `playing` with
index reset and all scores zeroed and broadcasts round 1, and a host-sent
`play_again` returns to `lobby` with the question cleared and scores reset;
non-host senders are ignored for both. -/
theorem c10_host_only_guard (shuffle : List String → List String)
    (s : ServerState) (game_id : String) (game : Game) (q : QuizItem)
    (hg : dictGet s.games game_id = some game)
    (hq0 : game.questions.get? 0 = some q) :
    (handle_message shuffle s game_id game.host .start_game =
      ({ games := dictSet s.games game_id
           { game with
               state := "playing"
               question_index := 1
               current_question := some q
               scores := game.scores.map (fun p => (p.1, 0)) },
         connections := s.connections },
       [broadcastTo
          { game with
              state := "playing"
              question_index := 1
              current_question := some q
              scores := game.scores.map (fun p => (p.1, 0)) }
          (.new_question q.term (shuffle (choicesBase q)) 20 1) []])) ∧
    (handle_message shuffle s game_id game.host .play_again =
      ({ games := dictSet s.games game_id
           { game with
               state := "lobby"
               current_question := none
               question_index := 0
               scores := game.scores.map (fun p => (p.1, 0)) },
         connections := s.connections },
       [broadcast_game_state
          { game with
              state := "lobby"
              current_question := none
              question_index := 0
              scores := game.scores.map (fun p => (p.1, 0)) }])) ∧
    (∀ p, p ≠ game.host →
      handle_message shuffle s game_id p .start_game = (s, []) ∧
      handle_message shuffle s game_id p .play_again = (s, [])) := by
  obtain ⟨hlen, hget⟩ := List.get?_eq_some.mp hq0
  refine ⟨?_, ?_, ?_⟩
  · unfold handle_message
    rw [hg]
    dsimp only
    rw [if_pos rfl]
    unfold start_game next_question
    rw [dif_neg (Nat.not_le.mpr hlen)]
    dsimp only
    rw [show ({ game with
        state := "playing"
        question_index := 0
        scores := game.scores.map (fun p => (p.1, 0)) } : Game).questions.get
        ⟨0, hlen⟩ = q from hget]
  · unfold handle_message
    rw [hg]
    dsimp only
    rw [if_pos rfl]
    rfl
  · intro p hp
    constructor <;>
      · unfold handle_message
        rw [hg]
        dsimp only
        rw [if_neg hp]

/-- Witness for C10 from the `finished` state: the host restarts the
played-out session (state becomes `playing`, Alice's 10 points are wiped,
round 1 is broadcast again) and a non-host `start_game` is ignored. -/
theorem c10_host_only_guard_witness :
    (dictGet (handle_message id serverFin "ABC123" "Alice"
        Action.start_game).1.games "ABC123").map
      (fun g => (g.state, g.question_index, g.current_question,
        dictGet g.scores "Alice")) = some ("playing", 1, some q0, some 0) ∧
    (dictGet (handle_message id serverFin "ABC123" "Alice"
        Action.play_again).1.games "ABC123").map
      (fun g => (g.state, g.current_question)) = some ("lobby", none) ∧
    handle_message id serverFin "ABC123" "Bob" Action.start_game =
      (serverFin, []) := by
  have h := c10_host_only_guard id serverFin "ABC123" c2Finished q0
    (by decide) (by decide)
  refine ⟨?_, ?_, (h.2.2 "Bob" (by decide)).1⟩
  · rw [show ("Alice" : String) = c2Finished.host from rfl, h.1]
    decide
  · rw [show ("Alice" : String) = c2Finished.host from rfl, h.2.1]
    decide

/-- C6: for any permutation standing for `random.shuffle` and any in-range
advance over the code's bank (reachable sessions always carry
`load_questions`), the broadcast `new_question` carries the shuffled choice
list built at line 155, which has exactly 4 entries, contains the correct
meaning exactly once, and is a permutation of {meaning} plus the first 3
distractors. -/
theorem c6_choices (shuffle : List String → List String)
    (hshuffle : ∀ l : List String, (shuffle l).Perm l)
    (g : Game) (q : QuizItem)
    (hbank : g.questions = load_questions)
    (hq : g.questions.get? g.question_index = some q) :
    (next_question shuffle g).2 =
      [broadcastTo
        { g with current_question := some q, question_index := g.question_index + 1 }
        (.new_question q.term (shuffle (choicesBase q)) 20 (g.question_index + 1)) []] ∧
    (shuffle (choicesBase q)).length = 4 ∧
    (shuffle (choicesBase q)).count q.meaning = 1 ∧
    (shuffle (choicesBase q)).Perm ([q.meaning] ++ q.distractors.take 3) := by
  obtain ⟨hlt, hget⟩ := List.get?_eq_some.mp hq
  have hperm := hshuffle (choicesBase q)
  have hmem : q ∈ load_questions := hbank ▸ (hget ▸ List.get_mem g.questions _ hlt)
  refine ⟨?_, ?_, ?_, hperm⟩
  · unfold next_question
    rw [dif_neg (Nat.not_le.mpr hlt)]
    dsimp only
    rw [hget]
  · rw [hperm.length_eq]
    simp only [load_questions, List.mem_cons, List.not_mem_nil, or_false] at hmem
    rcases hmem with rfl | rfl | rfl <;> decide
  · rw [hperm.count_eq]
    simp only [load_questions, List.mem_cons, List.not_mem_nil, or_false] at hmem
    rcases hmem with rfl | rfl | rfl <;> decide

/-- Witness for C6 at round 2 of the started single-player game, with the
identity permutation as the shuffle. -/
theorem c6_choices_witness :
    (next_question id c1Round1).2 =
      [broadcastTo
        { c1Round1 with current_question := some q1,
                        question_index := c1Round1.question_index + 1 }
        (.new_question q1.term (id (choicesBase q1)) 20
          (c1Round1.question_index + 1)) []] ∧
    (id (choicesBase q1)).length = 4 ∧
    (id (choicesBase q1)).count q1.meaning = 1 ∧
    (id (choicesBase q1)).Perm ([q1.meaning] ++ q1.distractors.take 3) :=
  c6_choices id (fun l => List.Perm.refl l) c1Round1 q1 (by decide) (by decide)

/-- Python's `max(items, key=value)` keeps the earliest maximal element: the
fold with `maxStep` lands on an element of the list, every element before it
is strictly smaller, and every element is bounded by it. -/
theorem foldl_maxStep_first (l : List (String × Nat)) (x : String × Nat) :
    ∃ l₁ l₂,
      x :: l = l₁ ++ (List.foldl maxStep x l) :: l₂ ∧
      (∀ p ∈ l₁, p.2 < (List.foldl maxStep x l).2) ∧
      (∀ p ∈ x :: l, p.2 ≤ (List.foldl maxStep x l).2) := by
  induction l generalizing x with
  | nil =>
    refine ⟨[], [], rfl, by simp, ?_⟩
    intro p hp
    rcases List.mem_singleton.mp hp with rfl
    exact le_refl _
  | cons y t ih =>
    simp only [List.foldl_cons]
    obtain ⟨l₁, l₂, hsplit, hlt, hle⟩ := ih (maxStep x y)
    by_cases hxy : x.2 < y.2
    · have hm : maxStep x y = y := by simp [maxStep, hxy]
      rw [hm] at hsplit hlt hle ⊢
      have hy2 : y.2 ≤ (List.foldl maxStep y t).2 :=
        hle y (List.mem_cons_self _ _)
      refine ⟨x :: l₁, l₂, ?_, ?_, ?_⟩
      · rw [List.cons_append, ← hsplit]
      · intro p hp
        rcases List.mem_cons.mp hp with rfl | hp'
        · exact lt_of_lt_of_le hxy hy2
        · exact hlt p hp'
      · intro p hp
        rcases List.mem_cons.mp hp with rfl | hp'
        · exact le_of_lt (lt_of_lt_of_le hxy hy2)
        · exact hle p hp'
    · have hm : maxStep x y = x := by simp [maxStep, hxy]
      have hyx : y.2 ≤ x.2 := Nat.le_of_not_lt hxy
      rw [hm] at hsplit hlt hle ⊢
      have hx2 : x.2 ≤ (List.foldl maxStep x t).2 :=
        hle x (List.mem_cons_self _ _)
      cases l₁ with
      | nil =>
        rw [List.nil_append] at hsplit
        injection hsplit with hx ht
        refine ⟨[], y :: l₂, ?_, by simp, ?_⟩
        · rw [List.nil_append, ← hx, ht]
        · intro p hp
          rcases List.mem_cons.mp hp with rfl | hp'
          · rw [← hx]
          · rcases List.mem_cons.mp hp' with rfl | hp''
            · rw [← hx]; exact hyx
            · exact hle p (List.mem_cons_of_mem _ (ht ▸ hp''))
      | cons z l₁' =>
        rw [List.cons_append] at hsplit
        injection hsplit with hz ht
        refine ⟨x :: y :: l₁', l₂, ?_, ?_, ?_⟩
        · rw [List.cons_append, List.cons_append, ← ht, hz]
        · intro p hp
          have hz2 : z.2 < (List.foldl maxStep x t).2 :=
            hlt z (List.mem_cons_self _ _)
          rcases List.mem_cons.mp hp with rfl | hp'
          · exact hz ▸ hz2
          · rcases List.mem_cons.mp hp' with rfl | hp''
            · exact lt_of_le_of_lt hyx (hz ▸ hz2)
            · exact hlt p (List.mem_cons_of_mem _ hp'')
        · intro p hp
          rcases List.mem_cons.mp hp with rfl | hp'
          · exact hx2
          · rcases List.mem_cons.mp hp' with rfl | hp''
            · exact le_trans hyx hx2
            · exact hle p (List.mem_cons_of_mem _ (ht ▸ hp''))

/-- C7: once the question index has reached the bank length, an advance
request runs `end_game`: the state becomes `finished` and the single
broadcast is `game_over` whose winner is null exactly when the score dict is
empty, and otherwise is the first player (in dict enumeration order)
attaining the maximum score — Python `max` keeps the earliest element among
ties. -/
theorem c7_finish_and_winner (shuffle : List String → List String) (g : Game)
    (h : g.questions.length ≤ g.question_index) :
    (next_question shuffle g).1.state = "finished" ∧
    (next_question shuffle g).2 =
      [broadcastTo { g with state := "finished" }
        (.game_over g.scores (winnerOf g.scores)) []] ∧
    (g.scores = [] → winnerOf g.scores = none) ∧
    (∀ x rest, g.scores = x :: rest →
      ∃ w v l₁ l₂,
        winnerOf g.scores = some w ∧
        g.scores = l₁ ++ (w, v) :: l₂ ∧
        (∀ p ∈ l₁, p.2 < v) ∧
        (∀ p ∈ g.scores, p.2 ≤ v)) := by
  refine ⟨?_, ?_, ?_, ?_⟩
  · unfold next_question
    rw [dif_pos h]
    rfl
  · unfold next_question
    rw [dif_pos h]
    rfl
  · intro he
    rw [he]
    rfl
  · intro x rest hsc
    obtain ⟨l₁, l₂, hsplit, hlt, hle⟩ := foldl_maxStep_first rest x
    refine ⟨(List.foldl maxStep x rest).1, (List.foldl maxStep x rest).2,
      l₁, l₂, ?_, ?_, hlt, ?_⟩
    · rw [hsc]
      rfl
    · rw [hsc, Prod.mk.eta]
      exact hsplit
    · intro p hp
      rw [hsc] at hp
      exact hle p hp

/-- Witness for C7 at the tied two-player session: the advance finishes the
game and the winner is Alice, the first of the two tied players in
enumeration order. -/
theorem c7_finish_and_winner_witness :
    ((next_question id gTie).1.state = "finished" ∧
     (next_question id gTie).2 =
       [broadcastTo { gTie with state := "finished" }
         (.game_over gTie.scores (winnerOf gTie.scores)) []] ∧
     (gTie.scores = [] → winnerOf gTie.scores = none) ∧
     (∀ x rest, gTie.scores = x :: rest →
       ∃ w v l₁ l₂,
         winnerOf gTie.scores = some w ∧
         gTie.scores = l₁ ++ (w, v) :: l₂ ∧
         (∀ p ∈ l₁, p.2 < v) ∧
         (∀ p ∈ gTie.scores, p.2 ≤ v))) ∧
    winnerOf gTie.scores = some "Alice" :=
  ⟨c7_finish_and_winner id gTie (by decide), by decide⟩

/-- A `broadcast` whose exclusion list hits no registered connection reaches
every player of the session. -/
theorem broadcastTo_exclude_none (g : Game) (m : Msg) (ws : Nat)
    (h : ∀ p ∈ g.players, p.2.websocket ≠ ws) :
    broadcastTo g m [ws] = { msg := m, recipients := dictKeys g.players } := by
  unfold broadcastTo dictKeys
  have hfilter : List.filter (fun p => decide (p.2.websocket ∉ [ws])) g.players
      = g.players :=
    List.filter_eq_self.mpr (fun p hp => by simpa using h p hp)
  rw [hfilter]

/-- C8: for a registered connection whose player is still in its session
(and with the Python-dict guarantees that keys are unique and distinct
players hold distinct sockets), the disconnect finalizer removes the player
and score entries together, broadcasts `player_left` to every remaining
player (the departing socket is gone from the roster, so the exclusion list
excludes nobody present), broadcasts the refreshed state, and erases the
registry entry; a second run of the finalizer for the same socket is a
no-op, so the cleanup mutates at most once. -/
theorem c8_disconnect_cleanup (s : ServerState) (ws : Nat)
    (game_id player_name : String) (game : Game)
    (hc : dictGet s.connections ws = some (game_id, player_name))
    (hg : dictGet s.games game_id = some game)
    (hp : dictContains game.players player_name = true)
    (hnodupP : (dictKeys game.players).Nodup)
    (hnodupS : (dictKeys game.scores).Nodup)
    (hnodupC : (dictKeys s.connections).Nodup)
    (hws : ∀ p ∈ dictRemove game.players player_name, p.2.websocket ≠ ws) :
    handle_disconnect s ws =
      ({ games := dictSet s.games game_id
           { game with players := dictRemove game.players player_name,
                       scores := dictRemove game.scores player_name },
         connections := dictRemove s.connections ws },
       [{ msg := .player_left player_name,
          recipients := dictKeys (dictRemove game.players player_name) },
        broadcast_game_state
          { game with players := dictRemove game.players player_name,
                      scores := dictRemove game.scores player_name }]) ∧
    dictGet (dictRemove game.players player_name) player_name = none ∧
    dictGet (dictRemove game.scores player_name) player_name = none ∧
    dictGet (dictRemove s.connections ws) ws = none ∧
    handle_disconnect (handle_disconnect s ws).1 ws =
      ((handle_disconnect s ws).1, []) := by
  have heq : handle_disconnect s ws =
      ({ games := dictSet s.games game_id
           { game with players := dictRemove game.players player_name,
                       scores := dictRemove game.scores player_name },
         connections := dictRemove s.connections ws },
       [{ msg := .player_left player_name,
          recipients := dictKeys (dictRemove game.players player_name) },
        broadcast_game_state
          { game with players := dictRemove game.players player_name,
                      scores := dictRemove game.scores player_name }]) := by
    unfold handle_disconnect
    rw [hc]
    dsimp only
    rw [hg]
    dsimp only
    rw [if_pos hp]
    rw [broadcastTo_exclude_none _ _ _ hws]
  refine ⟨heq, dictGet_remove_self _ _ hnodupP, dictGet_remove_self _ _ hnodupS,
    dictGet_remove_self _ _ hnodupC, ?_⟩
  rw [heq]
  unfold handle_disconnect
  dsimp only
  rw [dictGet_remove_self _ _ hnodupC]

/-- Witness for C8: Alice's socket (1) disconnects from the two-player
session; Bob alone receives `player_left` and the refreshed state, both
entries and the registry record are gone, and running the finalizer again
changes nothing. -/
theorem c8_disconnect_cleanup_witness :
    handle_disconnect serverAB 1 =
      ({ games := dictSet serverAB.games "ABC123"
           { abLobby with players := dictRemove abLobby.players "Alice",
                          scores := dictRemove abLobby.scores "Alice" },
         connections := dictRemove serverAB.connections 1 },
       [{ msg := .player_left "Alice",
          recipients := dictKeys (dictRemove abLobby.players "Alice") },
        broadcast_game_state
          { abLobby with players := dictRemove abLobby.players "Alice",
                         scores := dictRemove abLobby.scores "Alice" }]) ∧
    dictGet (dictRemove abLobby.players "Alice") "Alice" = none ∧
    dictGet (dictRemove abLobby.scores "Alice") "Alice" = none ∧
    dictGet (dictRemove serverAB.connections 1) 1 = none ∧
    handle_disconnect (handle_disconnect serverAB 1).1 1 =
      ((handle_disconnect serverAB 1).1, []) :=
  c8_disconnect_cleanup serverAB 1 "ABC123" "Alice" abLobby (by decide)
    (by decide) (by decide) (by decide) (by decide) (by decide) (by decide)

end GameServer
